import Mathlib

/-!
Verification of the LAIRA document-to-answer pipeline (shallow embedding).

Each definition below is translated from the repository's Python source;
the file/function of origin is named above every definition.  Python
strings are modelled as Lean `String`/`List Char`, Python ints as `Nat`
(or `Int` where the source arithmetic can go negative), Python floats as
`ℚ`, fallible calls as `Option`/`Except`, and external services
(embedding provider, ChromaDB backend, generative model, uuid4 supply)
as explicit oracle parameters.  Wall-clock times are threaded as
parameters.  Metadata dictionaries are modelled by structures holding
the keys the verified claims read.
-/

namespace Laira

/-! ### Python string primitives -/

/-- Model of Python's whitespace test used by `str.isspace`, `str.strip`
and `str.split` (delegated to `Char.isWhitespace`). -/
def py_ws (c : Char) : Bool := c.isWhitespace

/-- Python `str.strip()` on a character list: drop leading and trailing
whitespace. -/
def strip_chars (cs : List Char) : List Char :=
  ((cs.dropWhile py_ws).reverse.dropWhile py_ws).reverse

/-- Python `str.strip()` on a `String`. -/
def py_strip (s : String) : String := String.mk (strip_chars s.data)

/-- Word counter behind Python's `len(s.split())` (no argument: split on
whitespace runs, empty strings dropped).  `inWord` records whether the
scanner is inside a word. -/
def count_words : List Char → Bool → Nat
  | [], _ => 0
  | c :: rest, inWord =>
    if py_ws c then count_words rest false
    else (if inWord then 0 else 1) + count_words rest true

/-- Python `len(s.split())`. -/
def py_split_len (s : String) : Nat := count_words s.data false

/-! ### src/core/processing/progress.py -/

/-- `ProcessingStage` enum (progress.py lines 13-21). -/
inductive ProcessingStage where
  | initialized
  | extracting
  | chunking
  | embedding
  | storing
  | completed
  | failed
deriving DecidableEq, Repr

/-- `ProcessingProgress` dataclass (progress.py lines 24-34); timestamps
are rationals, the `errors` list keeps the error strings. -/
structure ProcessingProgress where
  stage : ProcessingStage
  total_steps : Nat
  current_step : Nat
  success_count : Nat
  error_count : Nat
  start_time : ℚ
  last_update_time : ℚ
  errors : List String
deriving DecidableEq, Repr

/-- `ProcessingProgress.progress_percentage` (progress.py lines 36-41):
returns `0.0` when `total_steps == 0`, otherwise
`min(100.0, current_step / total_steps * 100.0)`. -/
def progress_percentage (p : ProcessingProgress) : ℚ :=
  if p.total_steps = 0 then 0
  else min 100 ((p.current_step : ℚ) / (p.total_steps : ℚ) * 100)

/-- Modelled from the spec: the derived formula
`progress_percentage = min(100, current_step/total_steps*100)` of §3,
which performs the division unguarded and is therefore undefined
(`none`) when `total_steps = 0`.  Used only to compare the code's
guarded implementation against the spec's words. -/
def spec_progress_percentage (total current : Nat) : Option ℚ :=
  if total = 0 then none
  else some (min 100 ((current : ℚ) / (total : ℚ) * 100))

/-- The dictionary produced by `ProcessingProgress.to_dict`
(progress.py lines 48-59). -/
structure ProgressDict where
  stage : ProcessingStage
  total_steps : Nat
  current_step : Nat
  success_count : Nat
  error_count : Nat
  progress_percentage : ℚ
  elapsed_time : ℚ
  errors : List String
deriving DecidableEq, Repr

/-- `ProcessingProgress.to_dict` (progress.py lines 48-59); `now` models
`time.time()` read by the `elapsed_time` property. -/
def to_dict (p : ProcessingProgress) (now : ℚ) : ProgressDict :=
  { stage := p.stage
    total_steps := p.total_steps
    current_step := p.current_step
    success_count := p.success_count
    error_count := p.error_count
    progress_percentage := progress_percentage p
    elapsed_time := now - p.start_time
    errors := p.errors }

end Laira

namespace Laira

/-- C10: `ProcessingProgress.progress_percentage` is total: at
`total_steps = 0` it returns `0.0` where the spec's derived formula is
undefined, for `total_steps > 0` it agrees with the formula
`min(100, current_step/total_steps*100)`, and `to_dict` (a total Lean
function, hence never raising) serializes exactly that value. -/
theorem progress_percentage_total (p : ProcessingProgress) (now : ℚ) :
    (p.total_steps = 0 →
      progress_percentage p = 0 ∧
      spec_progress_percentage p.total_steps p.current_step = none) ∧
    (0 < p.total_steps →
      spec_progress_percentage p.total_steps p.current_step =
        some (progress_percentage p)) ∧
    (to_dict p now).progress_percentage = progress_percentage p := by
  refine ⟨fun h => ?_, fun h => ?_, rfl⟩
  · simp [progress_percentage, spec_progress_percentage, h]
  · have h0 : p.total_steps ≠ 0 := Nat.pos_iff_ne_zero.mp h
    simp [progress_percentage, spec_progress_percentage, h0]

/-- Witness for C10: the theorem applied at concrete progress snapshots,
one with `total_steps = 0` and one with `total_steps = 4`. -/
theorem progress_percentage_total_witness :
    (progress_percentage
        ⟨ProcessingStage.initialized, 0, 3, 0, 0, 0, 0, []⟩ = 0 ∧
      spec_progress_percentage 0 3 = none) ∧
    spec_progress_percentage 4 2 =
      some (progress_percentage
        ⟨ProcessingStage.chunking, 4, 2, 1, 0, 0, 0, []⟩) :=
  ⟨(progress_percentage_total
      ⟨ProcessingStage.initialized, 0, 3, 0, 0, 0, 0, []⟩ 0).1 rfl,
    (progress_percentage_total
      ⟨ProcessingStage.chunking, 4, 2, 1, 0, 0, 0, []⟩ 0).2.1 (by decide)⟩

end Laira

namespace Laira

/-! ### src/core/text_processing/text_chunker.py — chunk_by_size -/

/-- Python slice `text[a:b]` for `0 ≤ a ≤ b` (out-of-range bounds are
truncated, exactly as in Python). -/
def py_slice (cs : List Char) (a b : Nat) : List Char := (cs.drop a).take (b - a)

/-- The word-boundary scan of `chunk_by_size` / `chunk_with_overlap`
(text_chunker.py lines 182-183, 347-348):
`while end_pos > current_pos and not text[end_pos].isspace(): end_pos -= 1`.
Call sites guarantee `e < len(text)`, so the `getD` default is never read. -/
def find_break (cs : List Char) (current_pos : Nat) (e : Nat) : Nat :=
  if h : current_pos < e ∧ py_ws (cs.getD e ' ') = false then
    find_break cs current_pos (e - 1)
  else e
termination_by e
decreasing_by simp_wf; omega

/-- The end-position computation of one `chunk_by_size` iteration
(text_chunker.py lines 176-187): `end_pos = min(current_pos + size, n)`,
pulled back to the nearest preceding whitespace when `end_pos < n`, and
reset to `min(current_pos + size, n)` when the pull-back reached
`current_pos`. -/
def size_end_pos (cs : List Char) (size current_pos : Nat) : Nat :=
  let text_length := cs.length
  let e0 := min (current_pos + size) text_length
  if e0 < text_length then
    let b := find_break cs current_pos e0
    if b = current_pos then min (current_pos + size) text_length else b
  else e0

/-- The word-boundary scan never moves below `current_pos` nor above its
starting point. -/
theorem find_break_bounds (cs : List Char) (current_pos : Nat) :
    ∀ e, current_pos ≤ e →
      current_pos ≤ find_break cs current_pos e ∧ find_break cs current_pos e ≤ e := by
  intro e
  induction e using Nat.strong_induction_on with
  | _ e ih =>
    intro he
    rw [find_break]
    split
    case isTrue h =>
      have h1 : e - 1 < e := by omega
      have h2 := ih (e - 1) h1 (by omega)
      exact ⟨h2.1, by omega⟩
    case isFalse h => exact ⟨he, le_refl e⟩

/-- Full specification of the word-boundary scan: it stops either back at
`current_pos` with no whitespace anywhere in `(current_pos, e]`, or at the
nearest preceding whitespace position, with no whitespace after it up to
`e`. -/
theorem find_break_spec (cs : List Char) (current_pos : Nat) :
    ∀ e, current_pos ≤ e →
      (find_break cs current_pos e = current_pos ∧
        ∀ j, current_pos < j → j ≤ e → py_ws (cs.getD j ' ') = false) ∨
      (current_pos < find_break cs current_pos e ∧
        py_ws (cs.getD (find_break cs current_pos e) ' ') = true ∧
        ∀ j, find_break cs current_pos e < j → j ≤ e → py_ws (cs.getD j ' ') = false) := by
  intro e
  induction e using Nat.strong_induction_on with
  | _ e ih =>
    intro he
    rw [find_break]
    split
    case isTrue h =>
      have h1 : e - 1 < e := by omega
      rcases ih (e - 1) h1 (by omega) with ⟨hb, hall⟩ | ⟨hb, hws, hall⟩
      · exact Or.inl ⟨hb, fun j hj1 hj2 => by
          rcases Nat.lt_or_ge j e with hj | hj
          · exact hall j hj1 (by omega)
          · have : j = e := by omega
            simpa [this] using h.2⟩
      · exact Or.inr ⟨hb, hws, fun j hj1 hj2 => by
          rcases Nat.lt_or_ge j e with hj | hj
          · exact hall j hj1 (by omega)
          · have : j = e := by omega
            simpa [this] using h.2⟩
    case isFalse h =>
      rcases Nat.eq_or_lt_of_le he with heq | hlt
      · exact Or.inl ⟨heq.symm, fun j hj1 hj2 => by omega⟩
      · have hwse : py_ws (cs.getD e ' ') = true := by
          rcases Bool.eq_false_or_eq_true (py_ws (cs.getD e ' ')) with ht | hf
          · exact ht
          · exact absurd ⟨hlt, hf⟩ h
        exact Or.inr ⟨hlt, hwse, fun j hj1 hj2 => by omega⟩

/-- For a positive chunk size, each `chunk_by_size` iteration moves the
end position strictly past `current_pos` (the loop makes progress). -/
theorem size_end_pos_gt (cs : List Char) (size current_pos : Nat)
    (hs : 0 < size) (h : current_pos < cs.length) :
    current_pos < size_end_pos cs size current_pos := by
  simp only [size_end_pos]
  have he0 : current_pos < min (current_pos + size) cs.length := by
    exact lt_min (by omega) h
  split
  case isTrue h1 =>
    split
    case isTrue h2 => exact he0
    case isFalse h2 =>
      have hb := find_break_bounds cs current_pos (min (current_pos + size) cs.length)
        (le_of_lt he0)
      omega
  case isFalse h1 => exact he0

/-- The end position never exceeds the text length. -/
theorem size_end_pos_le (cs : List Char) (size current_pos : Nat) :
    size_end_pos cs size current_pos ≤ cs.length := by
  simp only [size_end_pos]
  split
  case isTrue h1 =>
    split
    case isTrue h2 => exact min_le_right _ _
    case isFalse h2 =>
      rcases le_or_lt current_pos (min (current_pos + size) cs.length) with hle | hlt
      · have hb := find_break_bounds cs current_pos (min (current_pos + size) cs.length) hle
        have := min_le_right (current_pos + size) cs.length
        omega
      · rw [find_break] at h2 ⊢
        have hcond : ¬ (current_pos < min (current_pos + size) cs.length ∧
            py_ws (cs.getD (min (current_pos + size) cs.length) ' ') = false) := by
          intro hc; omega
        simp only [dif_neg hcond]
        exact min_le_right _ _
  case isFalse h1 => exact min_le_right _ _

/-- One chunk produced by `chunk_by_size` (text_chunker.py lines 189-205).
Metadata fields not read by any verified claim (`chunk_strategy`,
`estimated_tokens`, which delegates to an external tokenizer) are
omitted. -/
structure SizeChunk where
  text : List Char
  chunk_index : Nat
  chunk_start_char : Nat
  chunk_end_char : Nat
deriving DecidableEq, Repr

/-- The `while current_pos < text_length` loop of `chunk_by_size`
(text_chunker.py lines 175-209); `chunk_text = text[current_pos:end_pos].strip()`
and `current_pos = end_pos` afterwards. -/
def chunk_by_size_go (cs : List Char) (size : Nat) (hs : 0 < size)
    (current_pos chunk_index : Nat) : List SizeChunk :=
  if h : current_pos < cs.length then
    { text := strip_chars (py_slice cs current_pos (size_end_pos cs size current_pos))
      chunk_index := chunk_index
      chunk_start_char := current_pos
      chunk_end_char := size_end_pos cs size current_pos }
    :: chunk_by_size_go cs size hs (size_end_pos cs size current_pos) (chunk_index + 1)
  else []
termination_by cs.length - current_pos
decreasing_by
  have h1 := size_end_pos_gt cs size current_pos hs h
  have h2 := size_end_pos_le cs size current_pos
  simp_wf
  omega

/-- `TextChunker.chunk_by_size` (text_chunker.py lines 151-211) for a
resolved positive chunk size. -/
def chunk_by_size (cs : List Char) (size : Nat) (hs : 0 < size) : List SizeChunk :=
  chunk_by_size_go cs size hs 0 0

/-- The chunks' `[chunk_start_char, chunk_end_char)` intervals are
consecutive, non-empty, and partition `[a, b)`. -/
def covers (a b : Nat) : List SizeChunk → Prop
  | [] => a = b
  | c :: rest =>
    c.chunk_start_char = a ∧ a < c.chunk_end_char ∧ c.chunk_end_char ≤ b ∧
      covers c.chunk_end_char b rest

end Laira

namespace Laira

/-- Adjacent Python slices concatenate. -/
theorem py_slice_append (cs : List Char) (a e b : Nat) (h1 : a ≤ e) (h2 : e ≤ b) :
    py_slice cs a e ++ py_slice cs e b = py_slice cs a b := by
  unfold py_slice
  rw [show b - a = (e - a) + (b - e) from by omega, List.take_add, List.drop_drop,
    show a + (e - a) = e from by omega]

/-- A `covers` chain of chunks concatenates its raw (unstripped) slices
back into the covered slice. -/
theorem covers_join (cs : List Char) :
    ∀ (l : List SizeChunk) (a b : Nat), covers a b l →
      (l.map (fun c => py_slice cs c.chunk_start_char c.chunk_end_char)).join =
        py_slice cs a b := by
  intro l
  induction l with
  | nil =>
    intro a b hc
    have hab : a = b := hc
    simp [py_slice, hab]
  | cons c rest ih =>
    intro a b hc
    obtain ⟨hstart, hlt, hle, hrest⟩ := hc
    have hjoin := ih c.chunk_end_char b hrest
    simp only [List.map_cons, List.join_cons, hjoin, hstart]
    exact py_slice_append cs a c.chunk_end_char b (by omega) hle

/-- The `chunk_by_size` loop covers `[current_pos, text_length)` with
consecutive non-empty intervals (stated with explicit fuel for the
induction; `fuel ≥ text_length - current_pos` suffices). -/
theorem chunk_by_size_go_covers (cs : List Char) (size : Nat) (hs : 0 < size) :
    ∀ (fuel current_pos chunk_index : Nat), cs.length - current_pos ≤ fuel →
      current_pos ≤ cs.length →
      covers current_pos cs.length (chunk_by_size_go cs size hs current_pos chunk_index) := by
  intro fuel
  induction fuel with
  | zero =>
    intro cp ci hfuel hcp
    rw [chunk_by_size_go]
    split
    case isTrue h => omega
    case isFalse h =>
      have hcpe : cp = cs.length := by omega
      exact hcpe
  | succ n ih =>
    intro cp ci hfuel hcp
    rw [chunk_by_size_go]
    split
    case isTrue h =>
      have hgt := size_end_pos_gt cs size cp hs h
      have hle2 := size_end_pos_le cs size cp
      exact ⟨rfl, hgt, hle2, ih (size_end_pos cs size cp) (ci + 1) (by omega) hle2⟩
    case isFalse h =>
      have hcpe : cp = cs.length := by omega
      exact hcpe

/-- Every chunk the `chunk_by_size` loop emits carries the stripped slice
as its text and an end position computed by `size_end_pos` from its own
start position. -/
theorem chunk_by_size_go_mem (cs : List Char) (size : Nat) (hs : 0 < size) :
    ∀ (fuel current_pos chunk_index : Nat), cs.length - current_pos ≤ fuel →
      ∀ c ∈ chunk_by_size_go cs size hs current_pos chunk_index,
        c.text = strip_chars (py_slice cs c.chunk_start_char c.chunk_end_char) ∧
        c.chunk_end_char = size_end_pos cs size c.chunk_start_char := by
  intro fuel
  induction fuel with
  | zero =>
    intro cp ci hfuel c hc
    rw [chunk_by_size_go] at hc
    split at hc
    case isTrue h => omega
    case isFalse h => exact absurd hc (List.not_mem_nil c)
  | succ n ih =>
    intro cp ci hfuel c hc
    rw [chunk_by_size_go] at hc
    split at hc
    case isTrue h =>
      rcases List.mem_cons.mp hc with hc | hc
      · subst hc
        exact ⟨rfl, rfl⟩
      · have hgt := size_end_pos_gt cs size cp hs h
        exact ih _ (ci + 1) (by omega) c hc
    case isFalse h => exact absurd hc (List.not_mem_nil c)

/-- When a chunk boundary falls strictly inside the text, it is either a
whitespace position that is the nearest one preceding
`current_pos + size` (no whitespace after it in range), or the hard cut
`current_pos + size` because the window contains no whitespace at all. -/
theorem size_end_pos_boundary (cs : List Char) (size current_pos : Nat)
    (h : size_end_pos cs size current_pos < cs.length) :
    (py_ws (cs.getD (size_end_pos cs size current_pos) ' ') = true ∧
      ∀ j, size_end_pos cs size current_pos < j → j ≤ current_pos + size →
        py_ws (cs.getD j ' ') = false) ∨
    (size_end_pos cs size current_pos = current_pos + size ∧
      ∀ j, current_pos < j → j ≤ current_pos + size →
        py_ws (cs.getD j ' ') = false) := by
  revert h
  simp only [size_end_pos]
  split
  case isTrue h1 =>
    have hmin : min (current_pos + size) cs.length = current_pos + size :=
      min_eq_left (by omega)
    rw [hmin]
    intro hlt
    rcases find_break_spec cs current_pos (current_pos + size) (by omega) with
      ⟨hb, hall⟩ | ⟨hb, hws, hall⟩
    · rw [if_pos hb]
      exact Or.inr ⟨rfl, hall⟩
    · rw [if_neg (by omega : find_break cs current_pos (current_pos + size) ≠ current_pos)]
      exact Or.inl ⟨hws, hall⟩
  case isFalse h1 =>
    intro hlt
    omega

/-- C8 (amended for the `let`-free statement): for every text and every
chunk size `S > 0`, `chunk_by_size` partitions `[0, len)` into
consecutive non-empty `[chunk_start_char, chunk_end_char)` intervals,
the concatenation of the raw slices reconstructs the text (each stored
chunk text being the stripped slice, i.e. lossless modulo whitespace
trimming at cut points), and every internal boundary is either the
nearest preceding whitespace position or a hard cut at
`chunk_start_char + S` when no whitespace exists in range. -/
theorem chunk_by_size_partitions (cs : List Char) (size : Nat) (hs : 0 < size) :
    covers 0 cs.length (chunk_by_size cs size hs) ∧
    ((chunk_by_size cs size hs).map
        (fun c => py_slice cs c.chunk_start_char c.chunk_end_char)).join = cs ∧
    (∀ c ∈ chunk_by_size cs size hs,
      c.text = strip_chars (py_slice cs c.chunk_start_char c.chunk_end_char)) ∧
    (∀ c ∈ chunk_by_size cs size hs, c.chunk_end_char < cs.length →
      (py_ws (cs.getD c.chunk_end_char ' ') = true ∧
        ∀ j, c.chunk_end_char < j → j ≤ c.chunk_start_char + size →
          py_ws (cs.getD j ' ') = false) ∨
      (c.chunk_end_char = c.chunk_start_char + size ∧
        ∀ j, c.chunk_start_char < j → j ≤ c.chunk_start_char + size →
          py_ws (cs.getD j ' ') = false)) := by
  have hcov := chunk_by_size_go_covers cs size hs cs.length 0 0 (by omega) (Nat.zero_le _)
  refine ⟨hcov, ?_, ?_, ?_⟩
  · have := covers_join cs (chunk_by_size cs size hs) 0 cs.length hcov
    simpa [py_slice] using this
  · intro c hc
    exact (chunk_by_size_go_mem cs size hs cs.length 0 0 (by omega) c hc).1
  · intro c hc hlt
    have hend := (chunk_by_size_go_mem cs size hs cs.length 0 0 (by omega) c hc).2
    rw [hend] at hlt ⊢
    exact size_end_pos_boundary cs size c.chunk_start_char hlt

end Laira

namespace Laira

/-- Sample text used by concrete witnesses. -/
def sample_text : String := "hello world foo"

/-- Witness for C8: the partition theorem applied to a concrete text with
chunk size 4. -/
theorem chunk_by_size_partitions_witness :
    0 < 4 ∧
    covers 0 sample_text.data.length (chunk_by_size sample_text.data 4 (by decide)) ∧
    ((chunk_by_size sample_text.data 4 (by decide)).map
      (fun c => py_slice sample_text.data c.chunk_start_char c.chunk_end_char)).join =
      sample_text.data :=
  ⟨by decide, (chunk_by_size_partitions sample_text.data 4 (by decide)).1,
    (chunk_by_size_partitions sample_text.data 4 (by decide)).2.1⟩

/-! ### src/core/text_processing/text_chunker.py — chunk_with_overlap

Positions are `Int` here because the Python arithmetic
(`end_pos - overlap`, `min(overlap, size - 1)`) can go negative for
pathological configurations, which is exactly what claim C7
quantifies over. -/

/-- Python indexing `text[i]` over `Int`, with Python's negative-index
wrap-around; an out-of-range access would raise `IndexError` in Python
and is unreachable at the call sites, so the default is arbitrary. -/
def py_char_at (cs : List Char) (i : Int) : Char :=
  if i < 0 then cs.getD ((cs.length : Int) + i).toNat ' '
  else cs.getD i.toNat ' '

/-- The word-boundary scan of `chunk_with_overlap`
(text_chunker.py lines 347-348), over `Int` positions. -/
def find_break_i (cs : List Char) (current_pos : Int) (e : Int) : Int :=
  if h : current_pos < e ∧ py_ws (py_char_at cs e) = false then
    find_break_i cs current_pos (e - 1)
  else e
termination_by (e - current_pos).toNat
decreasing_by simp_wf; omega

/-- The overlap clamp of `chunk_with_overlap` (text_chunker.py line 332):
`overlap = min(overlap, size - 1)`. -/
def overlap_clamp (size overlap_size : Int) : Int := min overlap_size (size - 1)

/-- The end-position computation of one `chunk_with_overlap` iteration
(text_chunker.py lines 341-352): identical to the `chunk_by_size` one,
over `Int`. -/
def overlap_end_pos (cs : List Char) (size current_pos : Int) : Int :=
  let text_length : Int := cs.length
  let e0 := min (current_pos + size) text_length
  if e0 < text_length then
    let b := find_break_i cs current_pos e0
    if b = current_pos then min (current_pos + size) text_length else b
  else e0

/-- The next scan position of one `chunk_with_overlap` iteration
(text_chunker.py lines 373-378):
`current_pos = end_pos - overlap if end_pos < text_length else text_length`,
then forced forward to the previous chunk's `chunk_end_char` (`end_pos`)
whenever it does not exceed the previous chunk's `chunk_start_char`. -/
def overlap_step (cs : List Char) (size ov current_pos : Int) : Int :=
  let text_length : Int := cs.length
  let e := overlap_end_pos cs size current_pos
  let next := if e < text_length then e - ov else text_length
  if next ≤ current_pos then e else next

/-- The `Int` word-boundary scan stays within `[current_pos, e]`. -/
theorem find_break_i_bounds (cs : List Char) (current_pos : Int) :
    ∀ e, current_pos ≤ e →
      current_pos ≤ find_break_i cs current_pos e ∧ find_break_i cs current_pos e ≤ e := by
  have key : ∀ (fuel : Nat) (e : Int), (e - current_pos).toNat ≤ fuel → current_pos ≤ e →
      current_pos ≤ find_break_i cs current_pos e ∧ find_break_i cs current_pos e ≤ e := by
    intro fuel
    induction fuel with
    | zero =>
      intro e hfuel he
      rw [find_break_i, dif_neg (by intro hc; exact absurd hc.1 (by omega))]
      exact ⟨he, le_refl e⟩
    | succ n ih =>
      intro e hfuel he
      rw [find_break_i]
      split
      case isTrue h =>
        have h2 := ih (e - 1) (by omega) (by omega)
        omega
      case isFalse h => exact ⟨he, le_refl e⟩
  intro e he
  exact key (e - current_pos).toNat e (le_refl _) he

/-- If the scan cannot start (window empty or reversed), it returns its
starting point. -/
theorem find_break_i_stuck (cs : List Char) (current_pos e : Int)
    (h : ¬ current_pos < e) : find_break_i cs current_pos e = e := by
  rw [find_break_i]
  rw [dif_neg]
  intro hc
  exact h hc.1

/-- Any overlap at most `size - 1` makes one `chunk_with_overlap`
iteration move the scan position strictly forward. -/
theorem overlap_step_gt (cs : List Char) (size ov pos : Int)
    (hov : ov ≤ size - 1) (h0 : 0 ≤ pos) (hlt : pos < (cs.length : Int)) :
    pos < overlap_step cs size ov pos := by
  simp only [overlap_step, overlap_end_pos]
  by_cases he0 : min (pos + size) (cs.length : Int) < (cs.length : Int)
  · have hps : pos + size < (cs.length : Int) := by
      rcases min_lt_iff.mp he0 with hh | hh
      · exact hh
      · omega
    have hmin : min (pos + size) (cs.length : Int) = pos + size :=
      min_eq_left (by omega)
    rw [if_pos he0, hmin]
    by_cases hsz : pos < pos + size
    · -- positive size: the scan window is non-empty
      have hb := find_break_i_bounds cs pos (pos + size) (by omega)
      by_cases hbp : find_break_i cs pos (pos + size) = pos
      · rw [if_pos hbp]
        rw [if_pos (by omega : pos + size < (cs.length : Int))]
        by_cases hforce : pos + size - ov ≤ pos
        · omega
        · rw [if_neg hforce]
          omega
      · rw [if_neg hbp]
        have hblt : find_break_i cs pos (pos + size) < (cs.length : Int) := by omega
        rw [if_pos hblt]
        by_cases hforce : find_break_i cs pos (pos + size) - ov ≤ pos
        · rw [if_pos hforce]
          omega
        · rw [if_neg hforce]
          omega
    · -- size ≤ 0: the scan never runs
      have hb := find_break_i_stuck cs pos (pos + size) hsz
      by_cases hbp : find_break_i cs pos (pos + size) = pos
      · -- size = 0
        rw [if_pos hbp]
        rw [if_pos (by omega : pos + size < (cs.length : Int))]
        have hnof : ¬ pos + size - ov ≤ pos := by omega
        rw [if_neg hnof]
        omega
      · -- size < 0
        rw [if_neg hbp, hb]
        rw [if_pos (by omega : pos + size < (cs.length : Int))]
        have hnof : ¬ pos + size - ov ≤ pos := by omega
        rw [if_neg hnof]
        omega
  · -- end position hit the text length: next position is the length
    have hmin : min (pos + size) (cs.length : Int) = (cs.length : Int) := by
      rcases min_choice (pos + size) ((cs.length : Int)) with hh | hh
      · omega
      · exact hh
    rw [if_neg he0, hmin]
    rw [if_neg (by omega : ¬ (cs.length : Int) < (cs.length : Int))]
    rw [if_neg (by omega : ¬ (cs.length : Int) ≤ pos)]
    exact hlt

/-- One chunk produced by `chunk_with_overlap`
(text_chunker.py lines 354-371); fields not read by claim C7 are kept to
the offsets and text. -/
structure OverlapChunk where
  text : List Char
  chunk_index : Nat
  chunk_start_char : Int
  chunk_end_char : Int
deriving DecidableEq, Repr

/-- The `while current_pos < text_length` loop of `chunk_with_overlap`
(text_chunker.py lines 340-380).  In every reachable state the position
is non-negative (threaded as `h0`); the slice uses `toNat` since both
bounds are non-negative there.  Termination is exactly the forward
progress proved in `overlap_step_gt`. -/
def chunk_with_overlap_go (cs : List Char) (size ov : Int) (hov : ov ≤ size - 1)
    (pos : Int) (h0 : 0 ≤ pos) (chunk_index : Nat) : List OverlapChunk :=
  if h : pos < (cs.length : Int) then
    { text := strip_chars (py_slice cs pos.toNat (overlap_end_pos cs size pos).toNat)
      chunk_index := chunk_index
      chunk_start_char := pos
      chunk_end_char := overlap_end_pos cs size pos }
    :: chunk_with_overlap_go cs size ov hov (overlap_step cs size ov pos)
        (le_of_lt (lt_of_le_of_lt h0 (overlap_step_gt cs size ov pos hov h0 h)))
        (chunk_index + 1)
  else []
termination_by ((cs.length : Int) - pos).toNat
decreasing_by
  have hgt := overlap_step_gt cs size ov pos hov h0 h
  simp_wf
  omega

/-- `TextChunker.chunk_with_overlap` (text_chunker.py lines 301-382) for
a resolved size and overlap: the overlap is first clamped to
`min(overlap, size - 1)` (line 332), then the loop runs from position 0. -/
def chunk_with_overlap (cs : List Char) (size overlap_size : Int) : List OverlapChunk :=
  chunk_with_overlap_go cs size (overlap_clamp size overlap_size)
    (min_le_right overlap_size (size - 1)) 0 (le_refl 0) 0

/-- C7: `chunk_with_overlap` clamps the overlap strictly below the chunk
size, and from every reachable (non-negative, in-range) scan position
one loop iteration strictly increases `current_pos` — so the loop of
`chunk_with_overlap` terminates on every input and configuration (its
definition above is accepted by the termination checker on exactly this
measure). -/
theorem chunk_with_overlap_progress (cs : List Char) (size overlap_size pos : Int)
    (h0 : 0 ≤ pos) (hlt : pos < (cs.length : Int)) :
    overlap_clamp size overlap_size < size ∧
    pos < overlap_step cs size (overlap_clamp size overlap_size) pos := by
  have hov : overlap_clamp size overlap_size ≤ size - 1 := min_le_right _ _
  exact ⟨by omega, overlap_step_gt cs size (overlap_clamp size overlap_size) pos hov h0 hlt⟩

/-- Witness for C7: progress at a concrete text, size 4, overlap 9
(bigger than the size, so the clamp is what prevents a loop) and
position 0. -/
theorem chunk_with_overlap_progress_witness :
    (0 : Int) ≤ 0 ∧ (0 : Int) < (sample_text.data.length : Int) ∧
    overlap_clamp 4 9 < 4 ∧
    (0 : Int) < overlap_step sample_text.data 4 (overlap_clamp 4 9) 0 :=
  ⟨le_refl 0, by decide,
    (chunk_with_overlap_progress sample_text.data 4 9 0 (le_refl 0) (by decide)).1,
    (chunk_with_overlap_progress sample_text.data 4 9 0 (le_refl 0) (by decide)).2⟩

end Laira

namespace Laira

/-! ### src/core/text_processing/chunking_utils.py — merge_small_chunks
(the identical post-pass also exists as
src/core/text_processing/text_chunker.py lines 441-499; the merge logic
and both size checks are the same). -/

/-- A chunk as consumed/produced by `merge_small_chunks`
(chunking_utils.py lines 132-193); `estimated_tokens` (external
tokenizer) is omitted, `max_size` is taken already resolved
(`max_chunk_size or config.get("chunk_size", 1000)`). -/
structure MChunk where
  text : String
  chunk_index : Nat
  chunk_end_char : Nat
  chunk_size_chars : Nat
  merged : Bool
  merged_indices : Option (List Nat)
deriving DecidableEq, Repr

/-- The merge branch of `merge_small_chunks`
(chunking_utils.py lines 173-187): append the separator and the next
chunk's text, update the bookkeeping metadata. -/
def merge_two (cur c : MChunk) : MChunk :=
  { text := cur.text ++ "\n\n" ++ c.text
    chunk_index := cur.chunk_index
    chunk_end_char := c.chunk_end_char
    chunk_size_chars := (cur.text ++ "\n\n" ++ c.text).length
    merged := true
    merged_indices := some ((cur.merged_indices.getD [cur.chunk_index]) ++ [c.chunk_index]) }

/-- The `for chunk in chunks` loop of `merge_small_chunks`
(chunking_utils.py lines 159-191) once `current_chunk` is non-`None`:
flush the accumulator (only if it reaches `min_chunk_size`) when adding
the next chunk would exceed `max_size`, else merge; the final
accumulator is appended unconditionally (lines 190-191). -/
def merge_small_chunks_loop (min_chunk_size max_size : Nat) (cur : MChunk) :
    List MChunk → List MChunk
  | [] => [cur]
  | c :: rest =>
    if max_size < cur.text.length + c.text.length then
      if min_chunk_size ≤ cur.text.length then
        cur :: merge_small_chunks_loop min_chunk_size max_size c rest
      else
        merge_small_chunks_loop min_chunk_size max_size c rest
    else
      merge_small_chunks_loop min_chunk_size max_size (merge_two cur c) rest

/-- `merge_small_chunks` (chunking_utils.py lines 132-193): empty input
returns empty (line 149-150), otherwise the first chunk seeds the
accumulator (the `current_chunk is None` branch). -/
def merge_small_chunks (min_chunk_size max_size : Nat) : List MChunk → List MChunk
  | [] => []
  | c :: rest => merge_small_chunks_loop min_chunk_size max_size c rest

/-- The loop always emits at least the final accumulator. -/
theorem merge_small_chunks_loop_ne_nil (min_chunk_size max_size : Nat) :
    ∀ (l : List MChunk) (cur : MChunk),
      merge_small_chunks_loop min_chunk_size max_size cur l ≠ [] := by
  intro l
  induction l with
  | nil => intro cur; simp [merge_small_chunks_loop]
  | cons c rest ih =>
    intro cur
    rw [merge_small_chunks_loop]
    split
    · split
      · simp
      · exact ih c
    · exact ih (merge_two cur c)

/-- Every chunk the loop emits other than the last one passed the
`min_chunk_size` flush guard. -/
theorem merge_small_chunks_loop_min (min_chunk_size max_size : Nat) :
    ∀ (l : List MChunk) (cur : MChunk),
      ∀ c ∈ (merge_small_chunks_loop min_chunk_size max_size cur l).dropLast,
        min_chunk_size ≤ c.text.length := by
  intro l
  induction l with
  | nil =>
    intro cur c hc
    simp [merge_small_chunks_loop] at hc
  | cons c rest ih =>
    intro cur d hd
    rw [merge_small_chunks_loop] at hd
    split at hd
    case isTrue hover =>
      split at hd
      case isTrue hmin =>
        obtain ⟨y, t, hyt⟩ :=
          List.exists_cons_of_ne_nil (merge_small_chunks_loop_ne_nil min_chunk_size max_size rest c)
        rw [hyt] at hd
        rcases List.mem_cons.mp hd with hd | hd
        · subst hd
          exact hmin
        · rw [← hyt] at hd
          exact ih c d hd
      case isFalse hmin => exact ih c d hd
    case isFalse hover => exact ih (merge_two cur c) d hd

/-- C9 (amended): every chunk in the output of `merge_small_chunks`
except possibly the last has text length at least `min_chunk_size`.
(The claim's second half — no output chunk exceeds `max_chunk_size` —
is false; see the counterexample.) -/
theorem merge_small_chunks_min_size (min_chunk_size max_size : Nat)
    (chunks : List MChunk) :
    ∀ c ∈ (merge_small_chunks min_chunk_size max_size chunks).dropLast,
      min_chunk_size ≤ c.text.length := by
  cases chunks with
  | nil => intro c hc; simp [merge_small_chunks] at hc
  | cons c rest =>
    intro d hd
    exact merge_small_chunks_loop_min min_chunk_size max_size rest c d hd

/-- Concrete chunks for the C9 counterexample and witness. -/
def mchunk_a : MChunk :=
  { text := "aaaaa", chunk_index := 0, chunk_end_char := 5,
    chunk_size_chars := 5, merged := false, merged_indices := none }

/-- Second concrete chunk. -/
def mchunk_b : MChunk :=
  { text := "bbbbb", chunk_index := 1, chunk_end_char := 10,
    chunk_size_chars := 5, merged := false, merged_indices := none }

/-- Third concrete chunk (two characters). -/
def mchunk_c : MChunk :=
  { text := "cc", chunk_index := 2, chunk_end_char := 12,
    chunk_size_chars := 2, merged := false, merged_indices := none }

/-- Counterexample to C9 as stated: with `min_chunk_size = 3` and
`max_chunk_size = 10`, the two 5-character chunks pass the merge check
(`5 + 5 > 10` is false), but the merged text gains the two-character
separator and ends up 12 characters long — an output chunk exceeds
`max_chunk_size`.  (A single input chunk longer than `max_chunk_size` is
likewise passed through unchanged.) -/
theorem merge_small_chunks_max_size_counterexample :
    ∃ c ∈ merge_small_chunks 3 10 [mchunk_a, mchunk_b], 10 < c.text.length := by
  decide

/-- Witness for C9 (amended): at `min_chunk_size = 3`,
`max_chunk_size = 10` and the three concrete chunks, the merged
12-character chunk is a non-last output chunk and satisfies the minimum
size bound. -/
theorem merge_small_chunks_min_size_witness :
    merge_two mchunk_a mchunk_b ∈
      (merge_small_chunks 3 10 [mchunk_a, mchunk_b, mchunk_c]).dropLast ∧
    3 ≤ (merge_two mchunk_a mchunk_b).text.length :=
  ⟨by decide,
    merge_small_chunks_min_size 3 10 [mchunk_a, mchunk_b, mchunk_c]
      (merge_two mchunk_a mchunk_b) (by decide)⟩

end Laira

namespace Laira

/-! ### src/routes/chat_helpers.py — format_context (the identical
budget-enforcing loop also sits in src/routes/chat_routes.py lines
62-83), and src/core/chat_engine.py — ChatEngine. -/

/-- A retrieved record as the chat code reads it: `text`, and the
`filename` / `file_path` metadata keys (`Option` models a missing key). -/
structure QueryResult where
  text : String
  filename : Option String
  file_path : Option String
deriving DecidableEq, Repr

/-- `CONTEXT_TOKEN_LIMIT` (chat_helpers.py line 12). -/
def CONTEXT_TOKEN_LIMIT : Nat := 3000

/-- Header of the context string (chat_helpers.py line 47). -/
def fc_header : String := "Relevant Information:\n"

/-- Fallback for a missing `filename` metadata key (chat_helpers.py line 55). -/
def unknown_filename : String := "Unknown"

/-- One appended context entry of `format_context`
(chat_helpers.py lines 54-57): the chunk is included whole, never
truncated. -/
def fc_entry (r : QueryResult) : String :=
  "\n---\nSource: " ++ (r.filename.getD unknown_filename) ++
    "\nContent:\n" ++ r.text ++ "\n---\n"

/-- The `for result in results` loop of `format_context`
(chat_helpers.py lines 50-64): include a chunk only when the running
word-count stays within `CONTEXT_TOKEN_LIMIT`, else `break`. -/
def format_context_loop : List QueryResult → String → Nat → String × Nat
  | [], context_str, token_count => (context_str, token_count)
  | r :: rest, context_str, token_count =>
    let result_tokens := py_split_len r.text
    if token_count + result_tokens ≤ CONTEXT_TOKEN_LIMIT then
      format_context_loop rest (context_str ++ fc_entry r) (token_count + result_tokens)
    else (context_str, token_count)

/-- `format_context` (chat_helpers.py lines 45-65). -/
def format_context (results : List QueryResult) : String :=
  (format_context_loop results fc_header 0).1

/-- The sublist of results `format_context` includes, mirroring the loop:
a greedy prefix of the ranked list. -/
def fc_included : List QueryResult → Nat → List QueryResult
  | [], _ => []
  | r :: rest, token_count =>
    let result_tokens := py_split_len r.text
    if token_count + result_tokens ≤ CONTEXT_TOKEN_LIMIT then
      r :: fc_included rest (token_count + result_tokens)
    else []

/-- Concatenation of whole context entries. -/
def concat_entries : List QueryResult → String
  | [] => ""
  | r :: rest => fc_entry r ++ concat_entries rest

/-- Sum of the per-chunk word-count estimates. -/
def tokens_sum (l : List QueryResult) : Nat :=
  (l.map (fun r => py_split_len r.text)).sum

/-- Unfolding lemma for `tokens_sum`. -/
theorem tokens_sum_cons (r : QueryResult) (l : List QueryResult) :
    tokens_sum (r :: l) = py_split_len r.text + tokens_sum l := by
  simp [tokens_sum]

/-- Invariant of the `format_context` loop: starting within budget, the
produced context is the start string followed by the whole entries of the
greedily included prefix, the final counter is the sum of their
estimates, and that sum never exceeds the budget. -/
theorem format_context_loop_spec :
    ∀ (results : List QueryResult) (context_str : String) (token_count : Nat),
      token_count ≤ CONTEXT_TOKEN_LIMIT →
      format_context_loop results context_str token_count =
        (context_str ++ concat_entries (fc_included results token_count),
          token_count + tokens_sum (fc_included results token_count)) ∧
      token_count + tokens_sum (fc_included results token_count) ≤ CONTEXT_TOKEN_LIMIT := by
  intro results
  induction results with
  | nil =>
    intro context_str token_count hle
    simp [format_context_loop, fc_included, concat_entries, tokens_sum, hle]
  | cons r rest ih =>
    intro context_str token_count hle
    simp only [format_context_loop, fc_included]
    split
    case isTrue h =>
      have hspec := ih (context_str ++ fc_entry r) (token_count + py_split_len r.text) h
      have h2 := hspec.2
      refine ⟨?_, ?_⟩
      · rw [hspec.1]
        simp only [concat_entries, tokens_sum_cons, String.append_assoc, Nat.add_assoc]
      · simp only [tokens_sum_cons]
        omega
    case isFalse h =>
      simp [concat_entries, tokens_sum, hle]

/-- The included results are a prefix of the ranked input. -/
theorem fc_included_prefix :
    ∀ (results : List QueryResult) (token_count : Nat),
      ∃ t, fc_included results token_count ++ t = results := by
  intro results
  induction results with
  | nil => intro tc; exact ⟨[], rfl⟩
  | cons r rest ih =>
    intro tc
    simp only [fc_included]
    split
    case isTrue h =>
      obtain ⟨t, ht⟩ := ih (tc + py_split_len r.text)
      exact ⟨t, by rw [List.cons_append, ht]⟩
    case isFalse h => exact ⟨r :: rest, rfl⟩

/-- C4 (amended): the web chat route's `format_context` adds retrieved
chunks in ranked order (the included chunks are a prefix of the ranked
list), includes each chunk whole (the context is the header followed by
whole entries, never a truncated one), stops at the first chunk that
would push the running word-count estimate over the 3000-token budget,
and the cumulative estimate of the included chunks never exceeds 3000.
(The claim as stated is false for the other cited implementation,
`ChatEngine._get_relevant_context` — see the counterexample.) -/
theorem format_context_budget (results : List QueryResult) :
    tokens_sum (fc_included results 0) ≤ CONTEXT_TOKEN_LIMIT ∧
    (∃ t, fc_included results 0 ++ t = results) ∧
    format_context results = fc_header ++ concat_entries (fc_included results 0) ∧
    (format_context_loop results fc_header 0).2 = tokens_sum (fc_included results 0) := by
  have hspec := format_context_loop_spec results fc_header 0 (by simp [CONTEXT_TOKEN_LIMIT])
  refine ⟨by simpa using hspec.2, fc_included_prefix results 0, ?_, ?_⟩
  · unfold format_context
    rw [hspec.1]
  · rw [hspec.1]
    simp

end Laira

namespace Laira

/-- Prefix of per-project collection names (chat_engine.py line 173). -/
def project_tag : String := "project_"

/-- Fallback for a missing `filename` key in the engine
(chat_engine.py line 208). -/
def unknown_document : String := "Unknown document"

/-- The fixed no-information answer (chat_engine.py line 268). -/
def no_info_answer : String :=
  "I don't have any relevant information from your documents to answer this question. Please make sure your documents have been properly uploaded and processed."

/-- The error recorded with the no-information answer
(chat_engine.py line 271). -/
def no_context_error : String := "No relevant context found"

/-- The fixed catch-all failure answer (chat_engine.py line 316). -/
def generic_error_answer : String :=
  "I encountered an error while trying to process your question. Please try again later."

/-- One context part of `_get_relevant_context`
(chat_engine.py line 211). -/
def grc_entry (i : Nat) (filename text : String) : String :=
  "[Document " ++ toString i ++ "] From " ++ filename ++ ":\n" ++ text ++ "\n"

/-- The `context_parts` loop of `_get_relevant_context`
(chat_engine.py lines 204-211): every result with non-empty stripped
text is included whole — no token budget is applied on this path. -/
def grc_parts (results : List QueryResult) : List String :=
  results.enum.filterMap (fun p =>
    let t := py_strip p.2.text
    if t = "" then none
    else some (grc_entry (p.1 + 1) (p.2.filename.getD unknown_document) t))

/-- The stripped texts `_get_relevant_context` includes (used to state
the claim's cumulative-estimate property on this path). -/
def grc_included_texts (results : List QueryResult) : List String :=
  results.filterMap (fun r =>
    let t := py_strip r.text
    if t = "" then none else some t)

/-- External outcomes one `ChatEngine.ask` call observes: the collection
names of `list_collections` (which itself catches and returns `[]`), the
`query_by_text` outcome (an exception — including a query-embedding
failure — is an `error`), and the `chat.send_message` outcome. -/
structure ChatOracles where
  collections : List String
  query : Except String (List QueryResult)
  send_message : Except String String

/-- `ChatEngine._get_relevant_context` (chat_engine.py lines 161-221):
missing collection, query exception, or empty result list each yield
`([], "")`; otherwise the results are formatted newline-joined. -/
def get_relevant_context (o : ChatOracles) (project_id : String) :
    List QueryResult × String :=
  let collection_name := project_tag ++ project_id
  if collection_name ∈ o.collections then
    match o.query with
    | .error _ => ([], "")
    | .ok results =>
      if results.isEmpty then ([], "")
      else (results, String.intercalate "\n" (grc_parts results))
  else ([], "")

/-- A deduplicated source reference (chat_engine.py lines 287-290). -/
structure SourceRef where
  name : String
  path : String
deriving DecidableEq, Repr

/-- The source-deduplication loop of `ask`
(chat_engine.py lines 282-290): first occurrence of each filename wins. -/
def extract_sources : List QueryResult → List SourceRef → List SourceRef
  | [], sources => sources
  | r :: rest, sources =>
    let filename := r.filename.getD unknown_document
    if (sources.map SourceRef.name).contains filename then
      extract_sources rest sources
    else
      extract_sources rest
        (sources ++ [{ name := filename, path := r.file_path.getD "" }])

/-- The structured result of `ChatEngine.ask`; `processing_time`
(wall clock) is omitted. -/
structure AskResult where
  answer : String
  sources : List SourceRef
  success : Bool
  error : Option String
  context_snippets : Option Nat
deriving DecidableEq, Repr

/-- The fixed no-relevant-information result
(chat_engine.py lines 266-272). -/
def no_info_result : AskResult :=
  { answer := no_info_answer, sources := [], success := false,
    error := some no_context_error, context_snippets := none }

/-- `ChatEngine.ask` (chat_engine.py lines 250-320): empty context gives
the fixed no-information result; an exception anywhere in the body
(modelled by the `send_message` outcome, the only fallible call after
`_get_relevant_context`, which catches internally) is caught and gives
the generic structured failure. -/
def ask (o : ChatOracles) (project_id : String) : AskResult :=
  let rc := get_relevant_context o project_id
  if rc.2 = "" then no_info_result
  else
    match o.send_message with
    | .error e =>
      { answer := generic_error_answer, sources := [], success := false,
        error := some e, context_snippets := none }
    | .ok answer =>
      { answer := answer, sources := extract_sources rc.1 [], success := true,
        error := none, context_snippets := some rc.1.length }

/-- C5: `ChatEngine.ask` is a total function of the observed outcomes
(no exception reaches the caller); when the project's collection is
absent, or no relevant context is retrieved, it returns the fixed
no-relevant-information result with `success=false` and an empty sources
list; and every failing result carries an error field, one of the two
fixed human-readable answers, and empty sources. -/
theorem ask_never_raises (o : ChatOracles) (project_id : String) :
    ((project_tag ++ project_id) ∉ o.collections ∨
        (get_relevant_context o project_id).2 = "" →
      ask o project_id = no_info_result) ∧
    ((ask o project_id).success = false →
      (ask o project_id).error.isSome = true ∧
      ((ask o project_id).answer = no_info_answer ∨
        (ask o project_id).answer = generic_error_answer) ∧
      (ask o project_id).sources = []) := by
  constructor
  · intro h
    rcases h with h | h
    · have hg : get_relevant_context o project_id = ([], "") := by
        simp [get_relevant_context, h]
      simp [ask, hg]
    · simp [ask, h]
  · intro hs
    by_cases hctx : (get_relevant_context o project_id).2 = ""
    · simp [ask, hctx, no_info_result, no_context_error]
    · cases hsm : o.send_message with
      | error e =>
        simp [ask, hctx, hsm]
      | ok ans =>
        exfalso
        have hgood : (ask o project_id).success = true := by
          simp [ask, hctx, hsm]
        rw [hgood] at hs
        exact Bool.noConfusion hs

/-- Concrete oracles for the C5 witness: no collections exist. -/
def chat_oracles_empty : ChatOracles :=
  { collections := [], query := Except.ok [], send_message := Except.ok "fine" }

/-- Witness for C5: asking against a project with no collection returns
the fixed no-information result, and that failing result is structured. -/
theorem ask_never_raises_witness :
    ask chat_oracles_empty "p1" = no_info_result ∧
    ((ask chat_oracles_empty "p1").error.isSome = true ∧
      ((ask chat_oracles_empty "p1").answer = no_info_answer ∨
        (ask chat_oracles_empty "p1").answer = generic_error_answer) ∧
      (ask chat_oracles_empty "p1").sources = []) :=
  ⟨(ask_never_raises chat_oracles_empty "p1").1 (Or.inl (by decide)),
    (ask_never_raises chat_oracles_empty "p1").2 (by decide)⟩

end Laira

namespace Laira

/-- A text of `n + 1` single-letter words separated by single spaces,
used to instantiate the claim's scenario of large retrieved chunks. -/
def mw : Nat → List Char
  | 0 => ['w']
  | n + 1 => 'w' :: ' ' :: mw n

/-- `mw n` contains `n + 1` Python words. -/
theorem count_words_mw : ∀ n, count_words (mw n) false = n + 1 := by
  intro n
  induction n with
  | zero => decide
  | succ k ih =>
    have hw : py_ws 'w' = false := by decide
    have hsp : py_ws ' ' = true := by decide
    show count_words ('w' :: ' ' :: mw k) false = k + 1 + 1
    simp only [count_words, hw, hsp, if_false, if_true, Bool.false_eq_true]
    omega

/-- `mw n` starts with the letter. -/
theorem mw_head : ∀ n, ∃ tl, mw n = 'w' :: tl := by
  intro n
  cases n with
  | zero => exact ⟨[], rfl⟩
  | succ k => exact ⟨' ' :: mw k, rfl⟩

/-- Reversed, `mw n` also starts with the letter. -/
theorem mw_reverse_head : ∀ n, ∃ tl, (mw n).reverse = 'w' :: tl := by
  intro n
  induction n with
  | zero => exact ⟨[], rfl⟩
  | succ k ih =>
    obtain ⟨tl, htl⟩ := ih
    refine ⟨tl ++ [' ', 'w'], ?_⟩
    show ('w' :: ' ' :: mw k).reverse = 'w' :: (tl ++ [' ', 'w'])
    rw [List.reverse_cons, List.reverse_cons, htl]
    simp

/-- Stripping `mw n` changes nothing: it neither starts nor ends with
whitespace. -/
theorem strip_chars_mw (n : Nat) : strip_chars (mw n) = mw n := by
  obtain ⟨tl, htl⟩ := mw_head n
  obtain ⟨tr, htr⟩ := mw_reverse_head n
  unfold strip_chars
  rw [htl]
  rw [List.dropWhile_cons]
  have hw : py_ws 'w' = false := by decide
  rw [hw]
  simp only [Bool.false_eq_true, if_false]
  rw [← htl, htr, List.dropWhile_cons, hw]
  simp only [Bool.false_eq_true, if_false]
  rw [← htr, List.reverse_reverse]

/-- A 1000-word retrieved chunk text. -/
def long_text : String := String.mk (mw 999)

/-- A retrieved chunk carrying the 1000-word text. -/
def long_result : QueryResult :=
  { text := long_text, filename := some "doc.pdf", file_path := none }

/-- The engine includes the stripped text of `long_result` whole. -/
theorem grc_includes_long :
    grc_included_texts (List.replicate 5 long_result) =
      List.replicate 5 long_text := by
  have hstrip : py_strip long_text = long_text := by
    show String.mk (strip_chars (mw 999)) = String.mk (mw 999)
    rw [strip_chars_mw]
  have hne : long_text ≠ "" := by
    intro h
    have hdata : mw 999 = [] := congrArg String.data h
    obtain ⟨tl, htl⟩ := mw_head 999
    rw [htl] at hdata
    exact List.noConfusion hdata
  simp [grc_included_texts, List.filterMap_replicate, long_result, hstrip, hne]

/-- Counterexample to C4 as stated: `ChatEngine._get_relevant_context`
— the context assembly serving `ChatEngine.ask` — applies no token
budget.  With 5 retrieved chunks of 1000 estimated tokens each (the
claim's own scenario shape), all 5 are included whole and the cumulative
word-count estimate of the included chunks is 5000, exceeding the
3000-token budget the claim asserts is never exceeded. -/
theorem get_relevant_context_no_budget_counterexample :
    (grc_included_texts (List.replicate 5 long_result)).length = 5 ∧
    ((grc_included_texts (List.replicate 5 long_result)).map py_split_len).sum = 5000 ∧
    CONTEXT_TOKEN_LIMIT <
      ((grc_included_texts (List.replicate 5 long_result)).map py_split_len).sum := by
  have hlen : py_split_len long_text = 1000 := by
    show count_words (mw 999) false = 1000
    rw [count_words_mw]
  rw [grc_includes_long]
  refine ⟨by simp, ?_, ?_⟩
  · simp [List.map_replicate, hlen, List.sum_replicate]
  · simp [List.map_replicate, hlen, List.sum_replicate, CONTEXT_TOKEN_LIMIT]

end Laira

namespace Laira

/-! ### src/core/processing/processor.py — DocumentProcessor -/

/-- The metadata keys of a page `Document` the processor reads. -/
structure PageMeta where
  document_id : Option String
  page : Option Nat
deriving DecidableEq, Repr

/-- A langchain page `Document` as produced by the extractor for PDFs. -/
structure PageDoc where
  page_content : String
  metadata : PageMeta
deriving DecidableEq, Repr

/-- What `TextExtractor.extract_text` returns on success: a plain string
for text-like files, a list of page documents for PDFs. -/
inductive Content where
  | text (s : String)
  | pages (ps : List PageDoc)
deriving DecidableEq, Repr

/-- A `TextChunk` as the processor reads it: its text and the metadata
keys (`chunk_id`, `document_id`) the verified claims use. -/
structure TChunk where
  text : String
  chunk_id : Option String
  document_id : Option String
deriving DecidableEq, Repr

/-- An embedding record built by `chunks_to_embeddings`
(processor.py lines 715-719); the sanitized metadata is modelled by the
`chunk_id` key the claims read. -/
structure EmbRec where
  text : String
  embedding : List Int
  metadata_chunk_id : Option String
deriving DecidableEq, Repr

/-- External outcomes one `process_document` run observes:
`extract` is the `document_to_text` outcome (`none` = extraction failed
or threw, caught there), `chunkFn` the chunker (`error` = an exception),
`embedBatch` the embedder's batch call (one `Option` vector per input
text, `error` = an exception), `store` the vector store's boolean
result, and `uuid` the `uuid.uuid4()` drawn at processor.py line 163. -/
structure DocOracles where
  extract : Option Content
  chunkFn : String → Except String (List TChunk)
  embedBatch : List String → Except String (List (Option (List Int)))
  store : List EmbRec → Bool
  uuid : String

/-- Separator inside chunk ids (processor.py lines 609, 640). -/
def chunk_sep : String := "_chunk_"

/-- Separator before the page number in page chunk ids
(processor.py line 640). -/
def page_sep : String := "_page_"

/-- Chunk-id assignment of the string branch of `text_to_chunks`
(processor.py lines 607-610): the id is the document id followed by the
positional index. -/
def assign_chunk_ids (doc_id : String) (chunks : List TChunk) : List TChunk :=
  chunks.enum.map (fun p =>
    { p.2 with chunk_id := some (doc_id ++ chunk_sep ++ toString p.1) })

/-- The page label used inside page chunk ids (processor.py line 624):
the `page` metadata value, or the literal fallback. -/
def page_num_str (m : PageMeta) : String :=
  match m.page with
  | some n => toString n
  | none => "unknown"

/-- Chunk-id assignment of the page branch of `text_to_chunks`
(processor.py lines 638-645). -/
def assign_page_chunk_ids (doc_id page_num : String) (chunks : List TChunk) :
    List TChunk :=
  chunks.enum.map (fun p =>
    { p.2 with
      chunk_id := some (doc_id ++ page_sep ++ page_num ++ chunk_sep ++ toString p.1) })

/-- The per-page loop of `text_to_chunks` (processor.py lines 617-648):
a chunker exception aborts the whole call (caught at line 664 → `None`);
a page with no chunks is skipped (`continue`); otherwise the page's
chunks get page-scoped ids and are appended. -/
def pages_chunks (chunkFn : String → Except String (List TChunk))
    (uuid doc_document_id_fallback : String) : List PageDoc → Option (List TChunk)
  | [] => some []
  | p :: rest =>
    match chunkFn p.page_content with
    | .error _ => none
    | .ok page_chunks =>
      if page_chunks.isEmpty then
        pages_chunks chunkFn uuid doc_document_id_fallback rest
      else
        match pages_chunks chunkFn uuid doc_document_id_fallback rest with
        | none => none
        | some tail =>
          some (assign_page_chunk_ids
            (p.metadata.document_id.getD doc_document_id_fallback)
            (page_num_str p.metadata) page_chunks ++ tail)

/-- `DocumentProcessor.text_to_chunks` (processor.py lines 564-674).
For string content (lines 591-611): an empty chunker result is treated
as a chunking FAILURE (`if not chunks: ... return None`, lines 600-605),
then ids `document_id + "_chunk_" + i` are assigned.  For page content,
the per-page loop above.  `uuid` models the `str(uuid.uuid4())` fallback
drawn when no `document_id` is present. -/
def text_to_chunks (chunkFn : String → Except String (List TChunk))
    (uuid : String) (content : Content) (doc_document_id : Option String) :
    Option (List TChunk) :=
  match content with
  | .text s =>
    match chunkFn s with
    | .error _ => none
    | .ok chunks =>
      if chunks.isEmpty then none
      else some (assign_chunk_ids (doc_document_id.getD uuid) chunks)
  | .pages ps => pages_chunks chunkFn uuid (doc_document_id.getD uuid) ps

/-- Stage 2 of `process_document` (processor.py lines 230-247): page
documents are converted to chunks directly (lines 235-237, keeping the
page metadata, assigning no chunk ids), string content goes through
`text_to_chunks` with the run's metadata carrying the fresh
`document_id` set at line 203. -/
def stage2_chunks (o : DocOracles) : Option (List TChunk) :=
  match o.extract with
  | none => none
  | some (.pages ps) =>
    some (ps.map (fun p =>
      { text := p.page_content, chunk_id := none,
        document_id := p.metadata.document_id }))
  | some (.text s) => text_to_chunks o.chunkFn o.uuid (.text s) (some o.uuid)

/-- The zip-and-filter of `chunks_to_embeddings`
(processor.py lines 710-724): one record per chunk whose embedding slot
is not `None`. -/
def chunks_to_embeddings_records (chunks : List TChunk)
    (embeddings : List (Option (List Int))) : List EmbRec :=
  (chunks.zip embeddings).filterMap (fun ce =>
    match ce.2 with
    | some v =>
      some { text := ce.1.text, embedding := v, metadata_chunk_id := ce.1.chunk_id }
    | none => none)

/-- The per-document result dictionary of `process_document`
(processor.py lines 170-183); `error` strings are abstracted to the
code's fallback messages, wall-clock `processing_time` is omitted. -/
structure DocResult where
  document_id : String
  success : Bool
  error : Option String
  chunk_count : Nat
  embedding_count : Nat
  stored_count : Nat
deriving DecidableEq, Repr

/-- Fallback error message of stage 1 (processor.py line 212). -/
def extract_failed_msg : String := "Failed to extract content"

/-- Fallback error message of stage 2 (processor.py line 242). -/
def chunk_failed_msg : String := "Failed to chunk content"

/-- Fallback error message of stage 3 (processor.py line 264). -/
def embed_failed_msg : String := "Failed to generate embeddings"

/-- Fallback error message of stage 4 (processor.py line 290). -/
def store_failed_msg : String := "Failed to store embeddings"

/-- `DocumentProcessor.process_document` (processor.py lines 147-320),
returning the result dictionary and the trace of stage values assigned
to the shared progress object, in order: the reset to INITIALIZED
(line 188), EXTRACTING (lines 208 and 508), then per branch CHUNKING
(line 231, and line 581 when `text_to_chunks` runs for string content),
EMBEDDING (lines 260 and 699), STORING (lines 282 and 757), and finally
COMPLETED or FAILED.  Every failure path returns a result with
`success := false` — no exception escapes. -/
def process_document (o : DocOracles) : DocResult × List ProcessingStage :=
  let base := [ProcessingStage.initialized, ProcessingStage.extracting,
    ProcessingStage.extracting]
  match o.extract with
  | none =>
    ({ document_id := o.uuid, success := false, error := some extract_failed_msg,
        chunk_count := 0, embedding_count := 0, stored_count := 0 },
      base ++ [ProcessingStage.failed])
  | some content =>
    let ctrace := base ++
      (match content with
        | .text _ => [ProcessingStage.chunking, ProcessingStage.chunking]
        | .pages _ => [ProcessingStage.chunking])
    match stage2_chunks o with
    | none =>
      ({ document_id := o.uuid, success := false, error := some chunk_failed_msg,
          chunk_count := 0, embedding_count := 0, stored_count := 0 },
        ctrace ++ [ProcessingStage.failed])
    | some chunks =>
      if chunks.isEmpty then
        ({ document_id := o.uuid, success := true, error := none,
            chunk_count := 0, embedding_count := 0, stored_count := 0 },
          ctrace ++ [ProcessingStage.completed])
      else
        match o.embedBatch (chunks.map TChunk.text) with
        | .error _ =>
          ({ document_id := o.uuid, success := false,
              error := some embed_failed_msg, chunk_count := chunks.length,
              embedding_count := 0, stored_count := 0 },
            ctrace ++ [ProcessingStage.embedding, ProcessingStage.embedding,
              ProcessingStage.failed])
        | .ok embs =>
          let records := chunks_to_embeddings_records chunks embs
          if records.isEmpty then
            ({ document_id := o.uuid, success := true, error := none,
                chunk_count := chunks.length, embedding_count := 0,
                stored_count := 0 },
              ctrace ++ [ProcessingStage.embedding, ProcessingStage.embedding,
                ProcessingStage.completed])
          else
            if o.store records then
              ({ document_id := o.uuid, success := true, error := none,
                  chunk_count := chunks.length, embedding_count := records.length,
                  stored_count := records.length },
                ctrace ++ [ProcessingStage.embedding, ProcessingStage.embedding,
                  ProcessingStage.storing, ProcessingStage.storing,
                  ProcessingStage.completed])
            else
              ({ document_id := o.uuid, success := false,
                  error := some store_failed_msg, chunk_count := chunks.length,
                  embedding_count := records.length, stored_count := 0 },
                ctrace ++ [ProcessingStage.embedding, ProcessingStage.embedding,
                  ProcessingStage.storing, ProcessingStage.storing,
                  ProcessingStage.failed])

/-- The aggregation loop of `process_documents`
(processor.py lines 439-461, the sequential branch; the concurrent
branch at lines 378-438 applies the identical per-result aggregation in
completion order). -/
def process_documents_loop : List DocOracles → Nat → Nat → Nat → List DocResult →
    Nat × Nat × Nat × List DocResult
  | [], processed, successful, failed, results =>
    (processed, successful, failed, results)
  | o :: rest, processed, successful, failed, results =>
    let r := (process_document o).1
    if r.success then
      process_documents_loop rest (processed + 1) (successful + 1) failed
        (results ++ [r])
    else
      process_documents_loop rest (processed + 1) successful (failed + 1)
        (results ++ [r])

/-- The aggregated batch result (processor.py lines 364-372); the
zero-document early return (lines 343-345) yields a different dictionary
shape, modelled by the `no_documents` constructor.  Timing fields are
omitted. -/
inductive BatchResult where
  | no_documents
  | agg (total_documents processed_documents successful_documents
      failed_documents : Nat) (document_results : List DocResult)
deriving DecidableEq, Repr

/-- `DocumentProcessor.process_documents` (processor.py lines 322-489). -/
def process_documents (runs : List DocOracles) : BatchResult :=
  if runs.length = 0 then BatchResult.no_documents
  else
    match process_documents_loop runs 0 0 0 [] with
    | (processed, successful, failed, results) =>
      BatchResult.agg runs.length processed successful failed results

end Laira

namespace Laira

/-- Closed form of the batch aggregation loop: every document is
processed, counters count the success flags, results are appended in
processing order. -/
theorem process_documents_loop_spec :
    ∀ (runs : List DocOracles) (processed successful failed : Nat)
      (results : List DocResult),
      process_documents_loop runs processed successful failed results =
        (processed + runs.length,
          successful + runs.countP (fun o => (process_document o).1.success),
          failed + runs.countP (fun o => !(process_document o).1.success),
          results ++ runs.map (fun o => (process_document o).1)) := by
  intro runs
  induction runs with
  | nil => intro p s f rs; simp [process_documents_loop]
  | cons o rest ih =>
    intro p s f rs
    simp only [process_documents_loop]
    by_cases hs : (process_document o).1.success
    · rw [if_pos hs, ih]
      refine Prod.ext ?_ (Prod.ext ?_ (Prod.ext ?_ ?_))
      · simp only [List.length_cons]; omega
      · simp only [List.countP_cons, hs]; simp; omega
      · simp only [List.countP_cons, hs]; simp
      · simp
    · rw [if_neg hs, ih]
      have hs' : (process_document o).1.success = false := by
        rcases Bool.eq_false_or_eq_true (process_document o).1.success with h | h
        · exact absurd h hs
        · exact h
      refine Prod.ext ?_ (Prod.ext ?_ (Prod.ext ?_ ?_))
      · simp only [List.length_cons]; omega
      · simp only [List.countP_cons, hs']; simp
      · simp only [List.countP_cons, hs']; simp; omega
      · simp

/-- A list's length splits into the count of a predicate and of its
negation. -/
theorem countP_self_add_countP_not (l : List DocOracles)
    (p : DocOracles → Bool) :
    l.countP p + l.countP (fun o => !(p o)) = l.length := by
  induction l with
  | nil => simp
  | cons o rest ih =>
    by_cases h : p o
    · simp only [List.countP_cons, h, List.length_cons]
      simp
      omega
    · have h' : p o = false := by
        rcases Bool.eq_false_or_eq_true (p o) with ht | hf
        · exact absurd ht h
        · exact hf
      simp only [List.countP_cons, h', List.length_cons]
      simp
      omega

/-- C1: in a batch in which exactly one document's run fails (its result
has `success = false`, whether the failure was a caught exception or a
stage error — `process_document` is total, so no exception escapes), the
aggregate reports N total, N processed, N-1 successful and 1 failed
documents, and the per-document results are exactly the N individual
results (so the failing document's result is the only one with
`success = false`). -/
theorem process_documents_isolates_failures (runs : List DocOracles)
    (h : runs.countP (fun o => !(process_document o).1.success) = 1) :
    process_documents runs =
      BatchResult.agg runs.length runs.length (runs.length - 1) 1
        (runs.map (fun o => (process_document o).1)) := by
  have hlen : runs.length ≠ 0 := by
    intro hl
    rw [List.length_eq_zero] at hl
    subst hl
    simp at h
  have hsplit := countP_self_add_countP_not runs
    (fun o => (process_document o).1.success)
  unfold process_documents
  rw [if_neg hlen, process_documents_loop_spec]
  have hsucc : runs.countP (fun o => (process_document o).1.success) =
      runs.length - 1 := by omega
  rw [h, hsucc]
  simp

end Laira

namespace Laira

/-- A model uuid4 draw. -/
def uuid_a : String := "aaaaaaaa-aaaa-4aaa-8aaa-aaaaaaaaaaaa"

/-- A second, distinct model uuid4 draw (same length, as all uuid4
strings have). -/
def uuid_b : String := "bbbbbbbb-bbbb-4bbb-8bbb-bbbbbbbbbbbb"

/-- A chunker oracle producing one chunk holding the whole text. -/
def one_chunk_fn : String → Except String (List TChunk) :=
  fun s => Except.ok [{ text := s, chunk_id := none, document_id := none }]

/-- An embedder oracle embedding every text successfully. -/
def all_ok_embed : List String → Except String (List (Option (List Int))) :=
  fun ts => Except.ok (ts.map (fun _ => some [1]))

/-- A healthy run: extraction, chunking, embedding and storage all
succeed. -/
def doc_ok : DocOracles :=
  { extract := some (Content.text "alpha beta"), chunkFn := one_chunk_fn,
    embedBatch := all_ok_embed, store := fun _ => true, uuid := uuid_a }

/-- A run whose extraction throws (caught in `document_to_text`, which
returns `None`). -/
def doc_bad : DocOracles :=
  { doc_ok with extract := none }

/-- The five-document batch of the claim's scenario, document 3 corrupt. -/
def c1_runs : List DocOracles := [doc_ok, doc_ok, doc_bad, doc_ok, doc_ok]

/-- Witness for C1: the batch theorem applied to the concrete
five-document batch whose third document fails extraction. -/
theorem process_documents_isolates_failures_witness :
    c1_runs.countP (fun o => !(process_document o).1.success) = 1 ∧
    process_documents c1_runs =
      BatchResult.agg c1_runs.length c1_runs.length (c1_runs.length - 1) 1
        (c1_runs.map (fun o => (process_document o).1)) :=
  ⟨by decide, process_documents_isolates_failures c1_runs (by decide)⟩

/-- C2 (amended): `process_document` reaches COMPLETED with
`success = true` (FAILED never entered) when the chunking stage yields
zero chunks from page-structured content (an empty page list — the only
way the page branch produces zero chunks), and when the embedding stage
yields zero successful embeddings; but NOT for string content whose
chunker returns zero chunks — there `text_to_chunks` returns `None` and
the run is FAILED (see the counterexample). -/
theorem process_document_empty_completes (o : DocOracles) :
    (o.extract = some (Content.pages []) →
      (process_document o).1.success = true ∧
      (process_document o).2.getLast? = some ProcessingStage.completed ∧
      ProcessingStage.failed ∉ (process_document o).2) ∧
    (∀ (content : Content) (chunks : List TChunk)
        (embs : List (Option (List Int))),
      o.extract = some content →
      stage2_chunks o = some chunks →
      chunks ≠ [] →
      o.embedBatch (chunks.map TChunk.text) = Except.ok embs →
      chunks_to_embeddings_records chunks embs = [] →
      (process_document o).1.success = true ∧
      (process_document o).2.getLast? = some ProcessingStage.completed ∧
      ProcessingStage.failed ∉ (process_document o).2) := by
  constructor
  · intro h
    have hs2 : stage2_chunks o = some [] := by
      simp [stage2_chunks, h]
    simp [process_document, h, hs2]
  · intro content chunks embs hext hs2 hne hemb hrec
    cases content with
    | text s =>
      simp only [process_document, hext, hs2]
      rw [if_neg (by simpa [List.isEmpty_iff] using hne)]
      rw [hemb]
      simp only [hrec]
      simp
    | pages ps =>
      simp only [process_document, hext, hs2]
      rw [if_neg (by simpa [List.isEmpty_iff] using hne)]
      rw [hemb]
      simp only [hrec]
      simp

/-- A run with page content and zero pages. -/
def doc_no_pages : DocOracles :=
  { doc_ok with extract := some (Content.pages []) }

/-- A run with one chunk whose embedding slot comes back `None`. -/
def doc_no_embeddings : DocOracles :=
  { doc_ok with
    extract := some (Content.text "x")
    embedBatch := fun ts => Except.ok (ts.map (fun _ => none)) }

/-- The chunk `doc_no_embeddings` produces in stage 2. -/
def c2_chunk : TChunk :=
  { text := "x", chunk_id := some (uuid_a ++ chunk_sep ++ toString 0),
    document_id := none }

/-- Witness for C2 (amended): both empty-content cases at concrete runs. -/
theorem process_document_empty_completes_witness :
    ((process_document doc_no_pages).1.success = true ∧
      (process_document doc_no_pages).2.getLast? = some ProcessingStage.completed ∧
      ProcessingStage.failed ∉ (process_document doc_no_pages).2) ∧
    ((process_document doc_no_embeddings).1.success = true ∧
      (process_document doc_no_embeddings).2.getLast? =
        some ProcessingStage.completed ∧
      ProcessingStage.failed ∉ (process_document doc_no_embeddings).2) :=
  ⟨(process_document_empty_completes doc_no_pages).1 rfl,
    (process_document_empty_completes doc_no_embeddings).2
      (Content.text "x") [c2_chunk] [none] rfl (by decide) (by decide)
      rfl (by decide)⟩

/-- A run with string content whose chunker yields zero chunks (for
example whitespace-only extracted text). -/
def doc_empty_text : DocOracles :=
  { doc_ok with
    extract := some (Content.text " ")
    chunkFn := fun _ => Except.ok [] }

/-- Counterexample to C2 as stated: a string-content document whose
chunking stage yields zero chunks does NOT complete —
`text_to_chunks` maps the empty chunker result to `None`
(processor.py lines 600-605), so the run enters FAILED and returns
`success = false`. -/
theorem process_document_empty_text_counterexample :
    (process_document doc_empty_text).1.success = false ∧
    ProcessingStage.failed ∈ (process_document doc_empty_text).2 ∧
    (process_document doc_empty_text).2.getLast? = some ProcessingStage.failed := by
  decide

end Laira

namespace Laira

/-- C3 (amended): `chunk_id` IS a deterministic function of the document
id and the positional index — for string content, `text_to_chunks`
yields exactly the ids `document_id ++ "_chunk_" ++ i` for the chunker's
output, so equal document ids give equal chunk_id sets.  But
`process_document` draws a FRESH uuid4 as the run's `document_id` on
every call (processor.py line 163), and whenever the two drawn uuids
differ (they always have equal length, 36), every chunk id of one run
differs from every chunk id of the other — so re-processing the same
source document produces a disjoint chunk_id set and re-storing adds
records instead of overwriting.  (Moreover, the pipeline's records reach
`VectorStore.store_embeddings` without an `"id"` key — processor.py
lines 714-719 — so the actual primary keys are fresh uuids drawn at
vector_store.py line 343.) -/
theorem chunk_ids_fresh_per_run :
    (∀ (chunkFn : String → Except String (List TChunk)) (s : String)
        (cs : List TChunk) (uuid doc_id : String),
      chunkFn s = Except.ok cs → cs ≠ [] →
      text_to_chunks chunkFn uuid (Content.text s) (some doc_id) =
        some (assign_chunk_ids doc_id cs) ∧
      (assign_chunk_ids doc_id cs).map TChunk.chunk_id =
        (List.range cs.length).map
          (fun i => some (doc_id ++ chunk_sep ++ toString i))) ∧
    (∀ (d1 d2 : String) (i j : Nat),
      d1.length = d2.length → d1 ≠ d2 →
      d1 ++ chunk_sep ++ toString i ≠ d2 ++ chunk_sep ++ toString j) := by
  constructor
  · intro chunkFn s cs uuid doc_id hok hne
    constructor
    · simp [text_to_chunks, hok, List.isEmpty_iff, hne]
    · rw [show (List.range cs.length) = cs.enum.map Prod.fst from
        (List.enum_map_fst cs).symm]
      rw [assign_chunk_ids, List.map_map, List.map_map]
      rfl
  · intro d1 d2 i j hlen hne heq
    have hdata : d1.data ++ (chunk_sep ++ toString i).data =
        d2.data ++ (chunk_sep ++ toString j).data := by
      have h1 := congrArg String.data heq
      simpa [String.data_append] using h1
    have hlen2 : d1.data.length = d2.data.length := hlen
    have := List.append_inj hdata hlen2
    apply hne
    cases d1 with
    | mk l1 =>
      cases d2 with
      | mk l2 =>
        exact congrArg String.mk (by simpa using this.1)

/-- A second run of the same source as `doc_run_a`, differing only in
the uuid4 drawn for the run. -/
def doc_run_b : DocOracles :=
  { doc_ok with uuid := uuid_b }

/-- The chunk ids a run's chunking stage produces. -/
def run_chunk_ids (o : DocOracles) : List (Option String) :=
  match stage2_chunks o with
  | none => []
  | some chunks => chunks.map TChunk.chunk_id

/-- Counterexample to C3 as stated: processing the same source document
twice (identical extraction, chunker, embedder, store behaviour; only
the per-run uuid4 draw differs, as it does on every real call) yields
chunk_id sets that are NOT equal — the first run's id is absent from the
second run's ids, so a re-store inserts under new ids instead of
overwriting. -/
theorem chunk_ids_differ_across_runs_counterexample :
    some (uuid_a ++ chunk_sep ++ toString 0) ∈ run_chunk_ids doc_ok ∧
    some (uuid_a ++ chunk_sep ++ toString 0) ∉ run_chunk_ids doc_run_b ∧
    run_chunk_ids doc_ok ≠ run_chunk_ids doc_run_b := by
  decide

/-- Witness for C3 (amended): the characterization at a concrete chunker
output and the disjointness at the two concrete uuids. -/
theorem chunk_ids_fresh_per_run_witness :
    (text_to_chunks one_chunk_fn uuid_a (Content.text "hello") (some uuid_a) =
      some (assign_chunk_ids uuid_a
        [{ text := "hello", chunk_id := none, document_id := none }]) ∧
    (assign_chunk_ids uuid_a
        [{ text := "hello", chunk_id := none, document_id := none }]).map
        TChunk.chunk_id =
      (List.range 1).map (fun i => some (uuid_a ++ chunk_sep ++ toString i))) ∧
    uuid_a ++ chunk_sep ++ toString 0 ≠ uuid_b ++ chunk_sep ++ toString 1 :=
  ⟨chunk_ids_fresh_per_run.1 one_chunk_fn "hello"
      [{ text := "hello", chunk_id := none, document_id := none }]
      uuid_a uuid_a rfl (by decide),
    chunk_ids_fresh_per_run.2 uuid_a uuid_b 0 1 (by decide) (by decide)⟩

end Laira

namespace Laira

/-! ### src/core/text_processing/vector_store.py — VectorStore.store_embeddings -/

/-- A record handed to `VectorStore.store_embeddings`: the optional
`id` key, the optional `embedding`, and the text.  (The `metadata` value
plays no role in the verified claim.) -/
structure VSRecord where
  id : Option String
  embedding : Option (List Int)
  text : String
deriving DecidableEq, Repr

/-- The validity test of the batch loop (vector_store.py lines 350-353):
`if not embedding: continue` skips a missing embedding and an empty
vector alike. -/
def record_valid (r : VSRecord) : Bool :=
  match r.embedding with
  | none => false
  | some v => !v.isEmpty

/-- The batch split `embeddings_data[i:i+batch_size]` driven by
`range(0, total_count, batch_size)` (vector_store.py lines 332-333),
written with structural fuel (any fuel at least the list length gives
the batch split, since every step with a positive step size consumes at
least one element); a zero step raises in Python and is guarded at the
use site below. -/
def list_chunks_fuel {α : Type} (k : Nat) : Nat → List α → List (List α)
  | _, [] => []
  | 0, _ :: _ => []
  | fuel + 1, x :: t =>
    if k = 0 then []
    else ((x :: t).take k) :: list_chunks_fuel k fuel ((x :: t).drop k)

/-- The batch split itself, with the list length as sufficient fuel. -/
def list_chunks {α : Type} (k : Nat) (xs : List α) : List (List α) :=
  list_chunks_fuel k xs.length xs

/-- The `for i in range(...)` loop of `store_embeddings`
(vector_store.py lines 332-371): an all-invalid batch is skipped
(`if not ids: continue`), a successful `_add_embeddings_with_retry`
call adds `len(ids)` to `success_count`, and a call that still raises
after its retries propagates out (second component `true`), aborting the
loop.  `add_ok` is the per-batch backend outcome after retries; the
item ids (given or drawn as fresh uuids) do not affect the counts. -/
def store_loop (add_ok : Nat → Bool) :
    List (List VSRecord) → Nat → Nat → Nat × Bool
  | [], _, success_count => (success_count, false)
  | batch :: rest, batch_index, success_count =>
    let ids_count := (batch.filter record_valid).length
    if ids_count = 0 then
      store_loop add_ok rest (batch_index + 1) success_count
    else if add_ok batch_index then
      store_loop add_ok rest (batch_index + 1) (success_count + ids_count)
    else (success_count, true)

/-- The collection state `store_embeddings` consults: the active
collection name, the backend's collection list, whether a collection
handle is selected, the configured batch size, and whether a backend
`create_collection` call would succeed. -/
structure VSState where
  collection_name : String
  collections : List String
  has_collection : Bool
  batch_size : Nat
  create_ok : Bool
deriving DecidableEq, Repr

/-- The collection pre-step of `store_embeddings`
(vector_store.py lines 314-319): switch via `use_collection` (which
requires the target to exist and updates the active name), falling back
to `create_collection` (which selects but does not rename), failing the
call if both fail. -/
def resolve_collection (st : VSState) (collection_name : Option String) :
    Option VSState :=
  match collection_name with
  | none => some st
  | some cn =>
    if cn = st.collection_name then some st
    else if cn ∈ st.collections then
      some { st with collection_name := cn, has_collection := true }
    else if st.create_ok then
      some { st with has_collection := true }
    else none

/-- `VectorStore.store_embeddings` (vector_store.py lines 300-379).
The first component is the boolean the function returns
(`success_count > 0`, or `False` when no collection is selected, when
the batch step is invalid, or when a batch add raised after its retries
— the exception lands in the catch-all at lines 376-379).  The second
component is the number of records actually stored in the backend —
also in the aborted case, where the function returns `False` although
earlier batches were already added. -/
def store_embeddings (st : VSState) (add_ok : Nat → Bool)
    (records : List VSRecord) (collection_name : Option String) : Bool × Nat :=
  match resolve_collection st collection_name with
  | none => (false, 0)
  | some st2 =>
    if st2.has_collection = false then (false, 0)
    else if st2.batch_size = 0 then (false, 0)
    else
      match store_loop add_ok (list_chunks st2.batch_size records) 0 0 with
      | (success_count, raised) =>
        if raised then (false, success_count)
        else (decide (0 < success_count), success_count)

/-- Batches produced by `list_chunks` are bounded by the batch size. -/
theorem list_chunks_fuel_bounded {α : Type} (k : Nat) :
    ∀ (fuel : Nat) (ys : List α), ∀ b ∈ list_chunks_fuel k fuel ys, b.length ≤ k := by
  intro fuel
  induction fuel with
  | zero =>
    intro ys b hb
    cases ys with
    | nil => exact absurd hb (List.not_mem_nil b)
    | cons y t => exact absurd hb (List.not_mem_nil b)
  | succ n ih =>
    intro ys b hb
    cases ys with
    | nil => exact absurd hb (List.not_mem_nil b)
    | cons y t =>
      rw [list_chunks_fuel] at hb
      split at hb
      · exact absurd hb (List.not_mem_nil b)
      · rcases List.mem_cons.mp hb with hb | hb
        · subst hb
          simpa using List.length_take_le k (y :: t)
        · exact ih ((y :: t).drop k) b hb

/-- Batches of the batch split are bounded by the batch size. -/
theorem list_chunks_bounded {α : Type} (k : Nat) (xs : List α) :
    ∀ b ∈ list_chunks k xs, b.length ≤ k :=
  list_chunks_fuel_bounded k xs.length xs

/-- With sufficient fuel, joining the batches restores the list. -/
theorem list_chunks_fuel_join {α : Type} (k : Nat) (hk : 0 < k) :
    ∀ (fuel : Nat) (ys : List α), ys.length ≤ fuel →
      (list_chunks_fuel k fuel ys).join = ys := by
  intro fuel
  induction fuel with
  | zero =>
    intro ys hf
    cases ys with
    | nil => rfl
    | cons y t => simp at hf
  | succ n ih =>
    intro ys hf
    cases ys with
    | nil => rfl
    | cons y t =>
      rw [list_chunks_fuel, if_neg (by omega : ¬ k = 0)]
      show (y :: t).take k ++ (list_chunks_fuel k n ((y :: t).drop k)).join = y :: t
      rw [ih ((y :: t).drop k)
        (by simp only [List.length_drop, List.length_cons] at hf ⊢; omega)]
      exact List.take_append_drop k (y :: t)

/-- Joining the batches restores the record list. -/
theorem list_chunks_join {α : Type} (k : Nat) (hk : 0 < k) (xs : List α) :
    (list_chunks k xs).join = xs :=
  list_chunks_fuel_join k hk xs.length xs (le_refl _)

/-- With a backend that never raises, the loop stores every valid record
of every batch and never aborts. -/
theorem store_loop_all_ok (add_ok : Nat → Bool) (hok : ∀ i, add_ok i = true) :
    ∀ (bs : List (List VSRecord)) (batch_index success_count : Nat),
      store_loop add_ok bs batch_index success_count =
        (success_count + (bs.map (fun b => (b.filter record_valid).length)).sum,
          false) := by
  intro bs
  induction bs with
  | nil => intro i acc; simp [store_loop]
  | cons b rest ih =>
    intro i acc
    simp only [store_loop]
    by_cases hz : (b.filter record_valid).length = 0
    · rw [if_pos hz, ih]
      simp [hz]
    · rw [if_neg hz, if_pos (hok i), ih]
      simp only [List.map_cons, List.sum_cons]
      refine Prod.ext ?_ rfl
      simp
      omega

/-- Summing per-batch valid counts equals the valid count of the joined
list. -/
theorem sum_filter_lengths (bs : List (List VSRecord)) :
    (bs.map (fun b => (b.filter record_valid).length)).sum =
      (bs.join.filter record_valid).length := by
  induction bs with
  | nil => simp
  | cons b rest ih =>
    simp [List.filter_append, ih]

/-- C6 (amended): with a selected collection, a positive batch size and
a backend whose batch adds all succeed, `store_embeddings` processes the
records in batches bounded by the batch size, skips all-invalid batches
without error, stores exactly the records that carry embeddings, and
returns success exactly when at least one such record exists.  (When a
batch add permanently fails the call returns failure even though earlier
batches were stored — see the counterexample.) -/
theorem store_embeddings_batched (st : VSState) (add_ok : Nat → Bool)
    (records : List VSRecord)
    (hcoll : st.has_collection = true) (hbatch : 0 < st.batch_size)
    (hok : ∀ i, add_ok i = true) :
    (∀ b ∈ list_chunks st.batch_size records, b.length ≤ st.batch_size) ∧
    (store_embeddings st add_ok records none).2 =
      (records.filter record_valid).length ∧
    ((store_embeddings st add_ok records none).1 = true ↔
      0 < (records.filter record_valid).length) := by
  have hb0 : ¬ st.batch_size = 0 := by omega
  refine ⟨list_chunks_bounded st.batch_size records, ?_, ?_⟩
  all_goals
    simp only [store_embeddings, resolve_collection, hcoll,
      store_loop_all_ok add_ok hok, sum_filter_lengths,
      list_chunks_join st.batch_size hbatch records]
    simp [hb0]

/-- Concrete state for the C6 counterexample/witness: batch size 1. -/
def vs_state_1 : VSState :=
  { collection_name := "laira_embeddings", collections := [],
    has_collection := true, batch_size := 1, create_ok := true }

/-- Two valid one-record batches. -/
def vs_records : List VSRecord :=
  [{ id := some "r1", embedding := some [1], text := "t1" },
    { id := some "r2", embedding := some [2], text := "t2" }]

/-- A backend whose second batch add permanently fails (raises after its
retries). -/
def add_first_only : Nat → Bool := fun i => i == 0

/-- Counterexample to C6 as stated: with two valid records in two
batches and a backend whose second batch add permanently fails, the
first batch's record IS stored (at least one record across all batches
was stored), yet `store_embeddings` returns failure — the raised batch
aborts the call instead of merely lowering the count. -/
theorem store_embeddings_abort_counterexample :
    1 ≤ (store_embeddings vs_state_1 add_first_only vs_records none).2 ∧
    (store_embeddings vs_state_1 add_first_only vs_records none).1 = false := by
  decide

/-- Witness for C6 (amended): the theorem at the concrete state and
records with an all-successful backend. -/
theorem store_embeddings_batched_witness :
    (∀ b ∈ list_chunks vs_state_1.batch_size vs_records,
      b.length ≤ vs_state_1.batch_size) ∧
    (store_embeddings vs_state_1 (fun _ => true) vs_records none).2 =
      (vs_records.filter record_valid).length ∧
    ((store_embeddings vs_state_1 (fun _ => true) vs_records none).1 = true ↔
      0 < (vs_records.filter record_valid).length) :=
  store_embeddings_batched vs_state_1 (fun _ => true) vs_records rfl
    (by decide) (fun _ => rfl)

end Laira
